import Mathlib

/-!
# Verification of the Indoor-Map-GUIs registration engine

Shallow embedding of the registration engine found in
`src/alignment/alignment_gui.py` (the two-pane TPS correspondence picker,
namespace `AGui`) and `src/alignment/alignment_gui_0.py` (the single-pane
interactive pan/rotate/zoom/deform tool, namespace `AGui0`).

Coordinates (64-bit floats in the source) are modelled as exact rationals.
Library numerics that have no rational closed form enter the model as
explicit parameters:

* the two principal axes computed by `sklearn.decomposition.PCA` appear as
  a `PCAComponents` parameter, while the mean subtraction and the failure
  condition of `PCA(n_components=2).fit` are modelled concretely;
* the value of a fitted `scipy.interpolate.Rbf` thin-plate interpolant
  appears as a `tpsEval` parameter, while the failure condition of the
  fit is modelled concretely as singularity of the radial-basis kernel
  matrix (the `scipy.linalg.solve` call raises exactly on a singular
  system): the kernel, as a function of the rational squared distance
  between control points — for the real thin-plate kernel r² log r this
  is s ↦ (1/2) s log s, transcendental and vanishing exactly at s ∈
  {0, 1} — enters as a parameter ψ, and duplicated control points make
  the matrix singular for every ψ (two identical rows), while the unit
  zero of the real kernel is captured through hypotheses ψ 0 = 0 and
  ψ 1 = 0 where a theorem needs it;
* the `np.arctan2`/`np.cos`/`np.sin` combination of the rotate gesture
  appears as an `angleOf` parameter returning the cosine and sine of the
  computed angle difference.
-/

/-- A 2D point (double precision in the source, exact `ℚ` in the model). -/
abbrev Point2 : Type := ℚ × ℚ

/-- A 3D point. -/
abbrev Point3 : Type := ℚ × ℚ × ℚ

/-- Componentwise addition of 2D points (numpy broadcast `+`). -/
def add2 (a b : Point2) : Point2 := (a.1 + b.1, a.2 + b.2)

/-- Componentwise subtraction of 2D points (numpy broadcast `-`). -/
def sub2 (a b : Point2) : Point2 := (a.1 - b.1, a.2 - b.2)

/-- Scalar multiple of a 2D point (numpy broadcast `*`). -/
def smul2 (z : ℚ) (a : Point2) : Point2 := (z * a.1, z * a.2)

/-- Componentwise mean of a list of 2D points (`np.mean(arr, axis=0)`). -/
def mean2 (l : List Point2) : Point2 :=
  ((l.map (fun p => p.1)).sum / (l.length : ℚ),
   (l.map (fun p => p.2)).sum / (l.length : ℚ))

/-- Componentwise subtraction of 3D points. -/
def sub3 (a b : Point3) : Point3 := (a.1 - b.1, a.2.1 - b.2.1, a.2.2 - b.2.2)

/-- Dot product of 3D points. -/
def dot3 (a b : Point3) : ℚ := a.1 * b.1 + a.2.1 * b.2.1 + a.2.2 * b.2.2

/-- Componentwise mean of a list of 3D points. -/
def mean3 (l : List Point3) : Point3 :=
  ((l.map (fun p => p.1)).sum / (l.length : ℚ),
   (l.map (fun p => p.2.1)).sum / (l.length : ℚ),
   (l.map (fun p => p.2.2)).sum / (l.length : ℚ))

/-- The two principal axes that `PCA(n_components=2).fit` extracts by
eigendecomposition of the mean-centered covariance.  The eigendecomposition
itself is library numerics with no rational closed form, so the fitted axes
enter the model as this parameter; everything the claims depend on (the
mean centering, the shared basis, and the fit's failure condition) is
modelled concretely below. -/
structure PCAComponents where
  c1 : Point3
  c2 : Point3
deriving DecidableEq

/-- `sklearn` `PCA.transform`: subtract the fitted mean, then project onto
the two component axes. -/
def pcaTransform (m : Point3) (C : PCAComponents) (p : Point3) : Point2 :=
  (dot3 (sub3 p m) C.c1, dot3 (sub3 p m) C.c2)

/-- The error raised by `PCA(n_components=2).fit` (a `ValueError`:
`n_components` must not exceed `min(n_samples, n_features)`; the points are
3-dimensional, so the fit fails exactly when fewer than 2 samples are
stacked).  The repository defines no error taxonomy of its own. -/
inductive PCAFitError
  | tooFewSamples
deriving DecidableEq

namespace AGui0

/-- `project_to_plane` of `alignment_gui_0.py`: stack trajectory and cloud,
fit one PCA on the union, transform each subset with the same fitted model.
`PCA(n_components=2).fit` raises exactly when the stacked matrix has fewer
than 2 rows; on any other input — rank-deficient ones included — it
returns a fitted basis. -/
def project_to_plane (C : PCAComponents) (trajectory pointcloud : List Point3) :
    Except PCAFitError (List Point2 × List Point2) :=
  let all_points := trajectory ++ pointcloud
  if all_points.length < 2 then
    Except.error PCAFitError.tooFewSamples
  else
    let m := mean3 all_points
    Except.ok (trajectory.map (pcaTransform m C), pointcloud.map (pcaTransform m C))

/-- The interaction mode selected by the four buttons (`self.mode`). -/
inductive Mode
  | move
  | zoom
  | rotate
  | deform
deriving DecidableEq

/-- The mutable state of `AlignmentGUI`: live projected geometry, active
mode, pending mouse positions, and the accumulated deform control points. -/
structure GUIState where
  kf : List Point2
  pc : List Point2
  mode : Option Mode
  last_mouse_pos : Option Point2
  deform_start : Option Point2
  control_src : List Point2
  control_dst : List Point2
deriving DecidableEq

/-- A repeated entry in the source list.  This is the always-singular case
of the kernel system: two equal control points yield two identical kernel
rows for every kernel function. -/
def hasDuplicateSource (src : List Point2) : Bool := decide (¬ src.Nodup)

/-- Squared euclidean distance between two 2D points — rational, unlike the
distance itself. -/
def sqDist (p q : Point2) : ℚ :=
  (p.1 - q.1) * (p.1 - q.1) + (p.2 - q.2) * (p.2 - q.2)

/-- The square system `scipy.interpolate.Rbf` solves: entry (i, j) is the
thin-plate kernel evaluated between source points i and j.  scipy's
`thin_plate` basis is φ(r) = r² log r, which as a function of the squared
distance s is (1/2) s log s — transcendental, so it enters as the
parameter ψ; its exact zero set {0, 1} is what the theorems below use.
The library adds no polynomial augmentation and imposes no minimum point
count. -/
def kernelMatrix (ψ : ℚ → ℚ) (src : List Point2) :
    Matrix (Fin src.length) (Fin src.length) ℚ :=
  Matrix.of fun i j => ψ (sqDist (src.get i) (src.get j))

/-- Whether the `Rbf` construction fails on these control points:
`scipy.linalg.solve` raises a linear-algebra error exactly when the kernel
matrix is singular.  Duplicated source points always produce this
(identical rows); certain distinct configurations do too, e.g. collinear
points at unit spacing, where the kernel vanishes at r = 1. -/
def kernelSingular (ψ : ℚ → ℚ) (src : List Point2) : Bool :=
  decide ((kernelMatrix ψ src).det = 0)

/-- `apply_tps_deformation`: fit two thin-plate `Rbf` interpolants on the
accumulated control points and rewrite `self.kf` and `self.pc` in place with
the warped coordinates.  The constructor raises exactly when the kernel
system is singular; both interpolants are built from the same source
points, so they fail together or succeed together, and on failure the
exception propagates before either geometry assignment runs.  The returned
flag records whether the call raised.  The fitted interpolant's values are
the `tpsEval` parameter; the kernel is the parameter ψ. -/
def apply_tps_deformation (ψ : ℚ → ℚ)
    (tpsEval : List Point2 → List Point2 → Point2 → Point2)
    (s : GUIState) : GUIState × Bool :=
  if kernelSingular ψ s.control_src then
    (s, true)
  else
    let w := tpsEval s.control_src s.control_dst
    ({ s with kf := s.kf.map w, pc := s.pc.map w }, false)

/-- `on_mouse_press`: in move/rotate/deform mode with in-axes coordinates,
record the mouse position; in deform mode also record the drag start. -/
def on_mouse_press (s : GUIState) (event : Option Point2) : GUIState :=
  match event with
  | some pos =>
      if s.mode = some Mode.move ∨ s.mode = some Mode.rotate ∨ s.mode = some Mode.deform then
        { s with last_mouse_pos := some pos,
                 deform_start := if s.mode = some Mode.deform then some pos else s.deform_start }
      else s
  | none => s

/-- `on_mouse_release`: in deform mode with a pending drag start, append the
start/end pair to the control lists, then — once at least 3 pairs have
accumulated — run `apply_tps_deformation`.  If the fit raises, the handler
is abandoned mid-body: the already-appended control points remain and
neither `deform_start` nor `last_mouse_pos` is cleared.  The flag records
whether the call raised. -/
def on_mouse_release (ψ : ℚ → ℚ)
    (tpsEval : List Point2 → List Point2 → Point2 → Point2)
    (s : GUIState) (event : Option Point2) : GUIState × Bool :=
  match s.mode, s.deform_start, event with
  | some Mode.deform, some d, some e =>
      let s1 : GUIState :=
        { s with control_src := s.control_src ++ [d],
                 control_dst := s.control_dst ++ [e] }
      if 3 ≤ s1.control_src.length then
        match apply_tps_deformation ψ tpsEval s1 with
        | (s2, true) => (s2, true)
        | (s2, false) => ({ s2 with deform_start := none, last_mouse_pos := none }, false)
      else
        ({ s1 with deform_start := none, last_mouse_pos := none }, false)
  | _, _, _ => ({ s with last_mouse_pos := none }, false)

/-- Row vector times the transpose of the rotation matrix
`[[cos,-sin],[sin,cos]]`, exactly as `(points - center) @ R.T` computes it
per row. -/
def rotRowT (cosA sinA : ℚ) (v : Point2) : Point2 :=
  (cosA * v.1 - sinA * v.2, sinA * v.1 + cosA * v.2)

/-- `on_mouse_drag`: with a recorded previous position and in-axes
coordinates, translate the geometry in move mode, or rotate it about the
current trajectory centroid in rotate mode; then record the new mouse
position.  The angle is `arctan2(v2) - arctan2(v1)` of the centered mouse
vectors; its cosine and sine are the `angleOf` parameter. -/
def on_mouse_drag (angleOf : Point2 → Point2 → ℚ × ℚ) (s : GUIState)
    (event : Option Point2) : GUIState :=
  match s.last_mouse_pos, event with
  | some lm, some cur =>
      let delta := sub2 cur lm
      let s1 : GUIState :=
        if s.mode = some Mode.move then
          { s with kf := s.kf.map (fun p => add2 p delta),
                   pc := s.pc.map (fun p => add2 p delta) }
        else if s.mode = some Mode.rotate then
          let center := mean2 s.kf
          let cs := angleOf (sub2 lm center) (sub2 cur center)
          { s with kf := s.kf.map (fun p => add2 (rotRowT cs.1 cs.2 (sub2 p center)) center),
                   pc := s.pc.map (fun p => add2 (rotRowT cs.1 cs.2 (sub2 p center)) center) }
        else s
      { s1 with last_mouse_pos := some cur }
  | _, _ => s

/-- `on_scroll`: in zoom mode, scale both point sets about the current
trajectory centroid; the factor is 1.1 for an upward step and 0.9 for a
downward one. -/
def on_scroll (s : GUIState) (step : ℤ) : GUIState :=
  if s.mode = some Mode.zoom then
    let zoom : ℚ := if 0 < step then 11 / 10 else 9 / 10
    let center := mean2 s.kf
    { s with kf := s.kf.map (fun p => add2 (smul2 zoom (sub2 p center)) center),
             pc := s.pc.map (fun p => add2 (smul2 zoom (sub2 p center)) center) }
  else s

end AGui0

namespace AGui

/-- The vertical flip `arr[:, 1] *= -1` that `alignment_gui.py` applies to
both projected subsets. -/
def flipY (q : Point2) : Point2 := (q.1, -q.2)

/-- `project_to_plane` of `alignment_gui.py`: identical to the
`alignment_gui_0.py` variant except that the second output axis of each
subset is negated after the shared-basis transform. -/
def project_to_plane (C : PCAComponents) (trajectory pointcloud : List Point3) :
    Except PCAFitError (List Point2 × List Point2) :=
  let all_points := trajectory ++ pointcloud
  if all_points.length < 2 then
    Except.error PCAFitError.tooFewSamples
  else
    let m := mean3 all_points
    Except.ok ((trajectory.map (pcaTransform m C)).map flipY,
               (pointcloud.map (pcaTransform m C)).map flipY)

/-- The estimator vocabulary of the specification's selection state machine.
The drawing code of `alignment_gui.py` only ever produces `noTransform` or
`nonRigid`; `rigid` exists in the vocabulary but in no code path. -/
inductive Strategy
  | noTransform
  | rigid
  | nonRigid
deriving DecidableEq

/-- The mutable state of `PointCloudAligner`: the ordered correspondence
lists, the two pending click selections, and the transform drawn by the
most recent `redraw`. -/
structure AlignerState where
  kf_points : List Point2
  floor_points : List Point2
  selected_kf_point : Option Point2
  selected_floor_point : Option Point2
  displayed : Strategy
deriving DecidableEq

/-- The transform `redraw` fits and draws: a thin-plate-spline warp exactly
when `len(self.kf_points) >= 4`, and nothing otherwise — the drawing code
contains no rigid branch. -/
def redrawStrategy (s : AlignerState) : Strategy :=
  if 4 ≤ s.kf_points.length then Strategy.nonRigid else Strategy.noTransform

/-- `redraw`: recompute the displayed overlay from the current state. -/
def redraw (s : AlignerState) : AlignerState := { s with displayed := redrawStrategy s }

/-- Which subplot a click landed in (`event.inaxes`). -/
inductive Pane
  | top
  | bottom
deriving DecidableEq

/-- `on_click`: record the clicked point as the pending selection of its
pane, then redraw. -/
def on_click (s : AlignerState) (pane : Pane) (pos : Point2) : AlignerState :=
  match pane with
  | Pane.top => redraw { s with selected_kf_point := some pos }
  | Pane.bottom => redraw { s with selected_floor_point := some pos }

/-- `add_correspondence`: when both selections are pending, append them to
the two lists together, clear the selections, and redraw; otherwise do
nothing. -/
def add_correspondence (s : AlignerState) : AlignerState :=
  match s.selected_kf_point, s.selected_floor_point with
  | some k, some f =>
      redraw { s with kf_points := s.kf_points ++ [k],
                      floor_points := s.floor_points ++ [f],
                      selected_kf_point := none,
                      selected_floor_point := none }
  | _, _ => s

/-- `remove_last_correspondence`: when the store is non-empty, pop the last
entry of both lists and redraw.  The Python method has no return statement,
so its value is `None` on every path; the popped pair is modelled as the
second component, which is always `none`. -/
def remove_last_correspondence (s : AlignerState) : AlignerState × Option (Point2 × Point2) :=
  if s.kf_points = [] then (s, none)
  else
    (redraw { s with kf_points := s.kf_points.dropLast,
                     floor_points := s.floor_points.dropLast }, none)

/-- One text line `src_x src_y dst_x dst_y` of `correspondences.txt`.
Python writes `f"{a} {b} {c} {d}"` (the shortest exact decimal repr of each
double) and reads it back with `float`, which round-trips doubles exactly,
so a line is modelled by its quadruple of values. -/
abbrev FileLine : Type := ℚ × ℚ × ℚ × ℚ

/-- The file at the fixed `correspondences.txt` path: `none` means the file
is absent. -/
abbrev FileState : Type := Option (List FileLine)

/-- `save_correspondences`: when either list is empty, report "Nothing to
save" and return without touching the file; otherwise open the path in
write mode (truncating it) and write every zipped pair in store order. -/
def save_correspondences (s : AlignerState) (fs : FileState) : FileState :=
  if s.kf_points = [] ∨ s.floor_points = [] then fs
  else
    some ((s.kf_points.zip s.floor_points).map
      (fun pr => (pr.1.1, pr.1.2, pr.2.1, pr.2.2)))

/-- `load_correspondences`: a missing file is not an error (return with the
store untouched); otherwise append every parsed line's source point and
target point to the two lists. -/
def load_correspondences (s : AlignerState) (fs : FileState) : AlignerState :=
  match fs with
  | none => s
  | some lines =>
      { s with kf_points := s.kf_points ++ lines.map (fun l => (l.1, l.2.1)),
               floor_points := s.floor_points ++ lines.map (fun l => (l.2.2.1, l.2.2.2)) }

/-- The state `PointCloudAligner.__init__` builds before loading: empty
store, no selections, and the first `redraw` of an empty store displays no
transform. -/
def initialState : AlignerState :=
  { kf_points := [], floor_points := [], selected_kf_point := none,
    selected_floor_point := none, displayed := Strategy.noTransform }

/-- One user operation on the correspondence picker. -/
inductive Op
  | clickTop (pos : Point2)
  | clickBottom (pos : Point2)
  | add
  | removeLast

/-- Dispatch one operation to its handler. -/
def step (s : AlignerState) : Op → AlignerState
  | Op.clickTop pos => on_click s Pane.top pos
  | Op.clickBottom pos => on_click s Pane.bottom pos
  | Op.add => add_correspondence s
  | Op.removeLast => (remove_last_correspondence s).1

/-- Run a sequence of user operations from the initial state. -/
def run (ops : List Op) : AlignerState := ops.foldl step initialState

/-- The three operations that add one given pair: click the source in the
top pane, click the target in the bottom pane, press Add. -/
def addPairOps (pr : Point2 × Point2) : List Op :=
  [Op.clickTop pr.1, Op.clickBottom pr.2, Op.add]

/-- Add a whole sequence of pairs to a fresh store, one Add press each. -/
def runAdds (pairs : List (Point2 × Point2)) : AlignerState :=
  run (pairs.flatMap addPairOps)

end AGui

/-! ## Shared helper lemmas and concrete instances -/

/-- Concrete principal axes standing in for a fitted eigendecomposition. -/
def axesXY : PCAComponents := { c1 := (1, 0, 0), c2 := (0, 1, 0) }

/-- Concrete stand-in for a fitted thin-plate interpolant: the identity. -/
def tpsId : List Point2 → List Point2 → Point2 → Point2 := fun _ _ p => p

/-- Concrete stand-in for a fitted thin-plate interpolant: a constant map,
chosen so that kernel evaluation needs no rational arithmetic. -/
def tpsConst : List Point2 → List Point2 → Point2 → Point2 := fun _ _ _ => (9, 9)

/-- Concrete rational stand-in for the thin-plate kernel as a function of
the squared distance s.  The real kernel (1/2) s log s vanishes exactly at
s ∈ {0, 1} and is nonzero elsewhere; ψ(s) = s (s − 1) has the same zero
set, which is all the concrete theorems below depend on. -/
def psiStd : ℚ → ℚ := fun s => s * (s - 1)

/-- Two equal source points give two identical kernel rows, so the kernel
system is singular for every kernel function: the always-raising case of
the `Rbf` fit. -/
lemma kernelSingular_of_dup (ψ : ℚ → ℚ) (src : List Point2)
    (h : AGui0.hasDuplicateSource src = true) : AGui0.kernelSingular ψ src = true := by
  unfold AGui0.hasDuplicateSource at h
  rw [decide_eq_true_eq] at h
  rw [List.nodup_iff_injective_get, Function.not_injective_iff] at h
  obtain ⟨i, j, hval, hne⟩ := h
  unfold AGui0.kernelSingular
  rw [decide_eq_true_eq]
  apply Matrix.det_zero_of_row_eq hne
  funext k
  show ψ (AGui0.sqDist (src.get i) (src.get k)) = ψ (AGui0.sqDist (src.get j) (src.get k))
  rw [hval]

/-- A release in deform mode whose appended source list makes the kernel
system singular: the fit raises after the control points were appended,
leaving the grown lists and the pending drag state in place. -/
lemma release_raises (ψ : ℚ → ℚ) (tpsEval : List Point2 → List Point2 → Point2 → Point2)
    (s : AGui0.GUIState) (d e : Point2)
    (hm : s.mode = some AGui0.Mode.deform)
    (hd : s.deform_start = some d)
    (hn : 2 ≤ s.control_src.length)
    (hsing : AGui0.kernelSingular ψ (s.control_src ++ [d]) = true) :
    AGui0.on_mouse_release ψ tpsEval s (some e) =
      ({ s with control_src := s.control_src ++ [d],
                control_dst := s.control_dst ++ [e] }, true) := by
  unfold AGui0.on_mouse_release
  rw [hm, hd]
  have hlen : 3 ≤ (s.control_src ++ [d]).length := by
    rw [List.length_append]
    simpa using hn
  simp only [hlen, if_true, if_pos hlen]
  unfold AGui0.apply_tps_deformation
  simp [hsing]

/-- A store holding the single correspondence ((1,2),(3,4)). -/
def storeOne : AGui.AlignerState :=
  { kf_points := [(1, 2)], floor_points := [(3, 4)],
    selected_kf_point := none, selected_floor_point := none,
    displayed := AGui.Strategy.noTransform }

lemma map_append_take {α β : Type} (f : α → β) (a b : List α) :
    ((a ++ b).map f).take a.length = a.map f := by
  rw [List.map_append, ← List.length_map a f]
  exact List.take_left _ _

lemma map_append_drop {α β : Type} (f : α → β) (a b : List α) :
    ((a ++ b).map f).drop a.length = b.map f := by
  rw [List.map_append, ← List.length_map a f]
  exact List.drop_left _ _

/-! ## Claim C9 -/

/-- Claim C9, counterexample: on the store holding the single pair
((1,2),(3,4)), `remove_last_correspondence` does remove the pair, but its
result value is not that pair — the Python method has no return statement,
so it yields `None` on every path, while the claim says the removed pair is
returned. -/
theorem C9_counterexample :
    (AGui.remove_last_correspondence storeOne).2 ≠ some (((1 : ℚ), (2 : ℚ)), ((3 : ℚ), (4 : ℚ)))
    ∧ (AGui.remove_last_correspondence storeOne).1.kf_points = [] := by
  decide

/-- Claim C9 (amended): `remove_last_correspondence` always yields no value;
on an empty store it is a no-op that does not raise, and on a non-empty
store it pops the most recently added entry of both lists together. -/
theorem C9_remove_last (s : AGui.AlignerState) :
    (AGui.remove_last_correspondence s).2 = none
    ∧ (s.kf_points = [] → (AGui.remove_last_correspondence s).1 = s)
    ∧ (s.kf_points ≠ [] →
        (AGui.remove_last_correspondence s).1.kf_points = s.kf_points.dropLast
        ∧ (AGui.remove_last_correspondence s).1.floor_points = s.floor_points.dropLast) := by
  unfold AGui.remove_last_correspondence
  by_cases h : s.kf_points = [] <;> simp [h, AGui.redraw]

/-- Witness for C9_remove_last at the singleton store. -/
theorem C9_remove_last_witness :
    (AGui.remove_last_correspondence storeOne).2 = none
    ∧ (AGui.remove_last_correspondence storeOne).1.kf_points = storeOne.kf_points.dropLast :=
  ⟨(C9_remove_last storeOne).1, ((C9_remove_last storeOne).2.2 (by decide)).1⟩

/-! ## Claim C10 -/

/-- Claim C10 (confirmed): when the correspondence store is empty,
`save_correspondences` performs no write at all — the file state at the
target path is returned untouched, so previously saved pairs remain on
disk and can differ from the in-memory (empty) store. -/
theorem C10_save_empty_noop (s : AGui.AlignerState) (fs : AGui.FileState)
    (h : s.kf_points = []) :
    AGui.save_correspondences s fs = fs := by
  unfold AGui.save_correspondences
  simp [h]

/-- Witness for C10_save_empty_noop: a pre-existing one-line file survives a
save of the empty initial store unchanged. -/
theorem C10_save_empty_noop_witness :
    AGui.save_correspondences AGui.initialState (some [(1, 2, 3, 4)]) = some [(1, 2, 3, 4)] :=
  C10_save_empty_noop AGui.initialState (some [(1, 2, 3, 4)]) rfl

/-! ## Claim C4 -/

/-- Two coincident points: at least 2 samples but rank 0. -/
def degeneratePoint : List Point3 := [(0, 0, 0)]

/-- Claim C4, counterexample: the combined input consisting of two
coincident points has rank 0 < 2, yet `project_to_plane` succeeds and
returns a projection — `PCA(n_components=2).fit` only raises when fewer
than 2 samples are stacked, and no `InsufficientDataError` type exists in
the repository. -/
theorem C4_counterexample :
    (AGui0.project_to_plane axesXY degeneratePoint degeneratePoint).isOk = true := by
  decide

/-- Claim C4 (amended): the projection fails — with sklearn's generic
`ValueError`, there being no `InsufficientDataError` — exactly when the
combined point set has fewer than 2 points; any input with at least 2
points, rank-deficient or not, yields the shared-basis projection of both
subsets. -/
theorem C4_pca_failure_condition (C : PCAComponents) (trajectory pointcloud : List Point3) :
    (2 ≤ (trajectory ++ pointcloud).length →
      AGui0.project_to_plane C trajectory pointcloud =
        Except.ok
          (trajectory.map (pcaTransform (mean3 (trajectory ++ pointcloud)) C),
           pointcloud.map (pcaTransform (mean3 (trajectory ++ pointcloud)) C)))
    ∧ ((trajectory ++ pointcloud).length < 2 →
      AGui0.project_to_plane C trajectory pointcloud = Except.error PCAFitError.tooFewSamples) := by
  unfold AGui0.project_to_plane
  constructor
  · intro h
    rw [if_neg (by omega)]
  · intro h
    rw [if_pos h]

/-- Witness for C4_pca_failure_condition at the two-coincident-point
input. -/
theorem C4_pca_failure_condition_witness :
    2 ≤ ((degeneratePoint ++ degeneratePoint).length)
    ∧ AGui0.project_to_plane axesXY degeneratePoint degeneratePoint =
        Except.ok
          (degeneratePoint.map (pcaTransform (mean3 (degeneratePoint ++ degeneratePoint)) axesXY),
           degeneratePoint.map (pcaTransform (mean3 (degeneratePoint ++ degeneratePoint)) axesXY)) :=
  ⟨by decide, (C4_pca_failure_condition axesXY degeneratePoint degeneratePoint).1 (by decide)⟩

/-! ## Claim C6 -/

/-- Claim C6 (confirmed): both `project_to_plane` variants fit one PCA model
on the stacked union (trajectory followed by cloud) and transform each
subset with that same fitted model; the two 2D outputs equal the projected
union split back at the trajectory length.  Output dimensionality is 2 by
the `Point2` codomain of the transform. -/
theorem C6_shared_basis_split (C : PCAComponents) (trajectory pointcloud : List Point3)
    (h : 2 ≤ (trajectory ++ pointcloud).length) :
    AGui0.project_to_plane C trajectory pointcloud =
      Except.ok
        (((trajectory ++ pointcloud).map
            (pcaTransform (mean3 (trajectory ++ pointcloud)) C)).take trajectory.length,
         ((trajectory ++ pointcloud).map
            (pcaTransform (mean3 (trajectory ++ pointcloud)) C)).drop trajectory.length)
    ∧ AGui.project_to_plane C trajectory pointcloud =
      Except.ok
        ((((trajectory ++ pointcloud).map
             (pcaTransform (mean3 (trajectory ++ pointcloud)) C)).map AGui.flipY).take
           trajectory.length,
         (((trajectory ++ pointcloud).map
             (pcaTransform (mean3 (trajectory ++ pointcloud)) C)).map AGui.flipY).drop
           trajectory.length) := by
  unfold AGui0.project_to_plane AGui.project_to_plane
  constructor
  · rw [if_neg (by omega)]
    rw [map_append_take, map_append_drop]
  · rw [if_neg (by omega)]
    simp only [List.map_map, map_append_take, map_append_drop]

/-- Witness for C6_shared_basis_split at a concrete two-point input. -/
theorem C6_shared_basis_split_witness :
    2 ≤ (([((1 : ℚ), (0 : ℚ), (0 : ℚ))] ++ [((0 : ℚ), (1 : ℚ), (0 : ℚ))]).length)
    ∧ (AGui0.project_to_plane axesXY [(1, 0, 0)] [(0, 1, 0)] =
        Except.ok
          ((([((1 : ℚ), (0 : ℚ), (0 : ℚ))] ++ [((0 : ℚ), (1 : ℚ), (0 : ℚ))]).map
              (pcaTransform (mean3 ([(1, 0, 0)] ++ [(0, 1, 0)])) axesXY)).take 1,
           (([((1 : ℚ), (0 : ℚ), (0 : ℚ))] ++ [((0 : ℚ), (1 : ℚ), (0 : ℚ))]).map
              (pcaTransform (mean3 ([(1, 0, 0)] ++ [(0, 1, 0)])) axesXY)).drop 1)
      ∧ AGui.project_to_plane axesXY [(1, 0, 0)] [(0, 1, 0)] =
        Except.ok
          (((([((1 : ℚ), (0 : ℚ), (0 : ℚ))] ++ [((0 : ℚ), (1 : ℚ), (0 : ℚ))]).map
               (pcaTransform (mean3 ([(1, 0, 0)] ++ [(0, 1, 0)])) axesXY)).map AGui.flipY).take 1,
           ((([((1 : ℚ), (0 : ℚ), (0 : ℚ))] ++ [((0 : ℚ), (1 : ℚ), (0 : ℚ))]).map
               (pcaTransform (mean3 ([(1, 0, 0)] ++ [(0, 1, 0)])) axesXY)).map AGui.flipY).drop 1)) :=
  ⟨by decide, C6_shared_basis_split axesXY [(1, 0, 0)] [(0, 1, 0)] (by decide)⟩

/-! ## Claim C1 -/

/-- The selection invariant: the transform displayed by the last redraw is
the one the current pair count supports — TPS at 4 or more pairs, nothing
below that. -/
def displayInvariant (s : AGui.AlignerState) : Prop :=
  s.displayed =
    (if 4 ≤ s.kf_points.length then AGui.Strategy.nonRigid else AGui.Strategy.noTransform)

lemma step_displayInvariant (s : AGui.AlignerState) (op : AGui.Op)
    (h : displayInvariant s) : displayInvariant (AGui.step s op) := by
  cases op with
  | clickTop pos =>
      simp [AGui.step, AGui.on_click, AGui.redraw, AGui.redrawStrategy, displayInvariant]
  | clickBottom pos =>
      simp [AGui.step, AGui.on_click, AGui.redraw, AGui.redrawStrategy, displayInvariant]
  | add =>
      unfold AGui.step AGui.add_correspondence
      cases hk : s.selected_kf_point with
      | none => simpa [hk] using h
      | some k =>
          cases hf : s.selected_floor_point with
          | none => simpa [hk, hf] using h
          | some f =>
              simp [hk, hf, AGui.redraw, AGui.redrawStrategy, displayInvariant]
  | removeLast =>
      unfold AGui.step AGui.remove_last_correspondence
      by_cases hk : s.kf_points = []
      · simpa [hk] using h
      · simp [hk, AGui.redraw, AGui.redrawStrategy, displayInvariant]

lemma foldl_displayInvariant (ops : List AGui.Op) (s : AGui.AlignerState)
    (h : displayInvariant s) : displayInvariant (ops.foldl AGui.step s) := by
  induction ops generalizing s with
  | nil => exact h
  | cons op rest ih => exact ih _ (step_displayInvariant s op h)

/-- Claim C1 (amended): after every sequence of click/add/remove operations
from the initial state the displayed strategy is exactly the one the pair
count supports — thin-plate-spline at 4 or more pairs, no transform below
that (the code has no rigid similarity estimator, so nothing is fit at
exactly 3 pairs); and removing a pair from a 4-pair store demotes the
displayed strategy back to no transform rather than leaving a stale fit. -/
theorem C1_count_driven_selection (ops : List AGui.Op) :
    ((AGui.run ops).displayed =
      (if 4 ≤ (AGui.run ops).kf_points.length then AGui.Strategy.nonRigid
       else AGui.Strategy.noTransform))
    ∧ ((AGui.run ops).kf_points.length = 4 →
        (AGui.run (ops ++ [AGui.Op.removeLast])).displayed = AGui.Strategy.noTransform) := by
  constructor
  · exact foldl_displayInvariant ops AGui.initialState (by simp [displayInvariant, AGui.initialState])
  · intro h4
    have hrw : AGui.run (ops ++ [AGui.Op.removeLast]) =
        AGui.step (AGui.run ops) AGui.Op.removeLast := by
      unfold AGui.run
      rw [List.foldl_append, List.foldl_cons, List.foldl_nil]
    rw [hrw]
    have hne : ¬ (AGui.run ops).kf_points = [] := by
      intro hnil
      rw [hnil] at h4
      simp at h4
    unfold AGui.step AGui.remove_last_correspondence
    rw [if_neg hne]
    have hlen : (AGui.run ops).kf_points.dropLast.length = 3 := by
      rw [List.length_dropLast, h4]
    simp [AGui.redraw, AGui.redrawStrategy, hlen]

/-- The operation sequence adding three concrete correspondences. -/
def opsThree : List AGui.Op :=
  ([((0, 0), (0, 0)), ((1, 0), (1, 0)), ((0, 1), (0, 1))] :
    List (Point2 × Point2)).flatMap AGui.addPairOps

/-- The operation sequence adding four concrete correspondences. -/
def opsFour : List AGui.Op :=
  ([((0, 0), (0, 0)), ((1, 0), (1, 0)), ((0, 1), (0, 1)), ((2, 2), (2, 2))] :
    List (Point2 × Point2)).flatMap AGui.addPairOps

/-- Claim C1, counterexample: after adding exactly 3 pairs the claim says
the best-fit 2D similarity transform is the active strategy, but the code
displays no transform at all — `redraw` fits nothing below 4 pairs and the
repository contains no rigid estimator. -/
theorem C1_counterexample :
    (AGui.run opsThree).kf_points.length = 3
    ∧ (AGui.run opsThree).displayed = AGui.Strategy.noTransform
    ∧ AGui.Strategy.noTransform ≠ AGui.Strategy.rigid := by
  decide

/-- Witness for C1_count_driven_selection: removing from a 4-pair store
demotes the displayed strategy to no transform. -/
theorem C1_count_driven_selection_witness :
    (AGui.run opsFour).kf_points.length = 4
    ∧ (AGui.run (opsFour ++ [AGui.Op.removeLast])).displayed = AGui.Strategy.noTransform :=
  ⟨by decide, (C1_count_driven_selection opsFour).2 (by decide)⟩

/-! ## Claim C2 -/

lemma runAdds_aux (pairs : List (Point2 × Point2)) (s : AGui.AlignerState) :
    ((pairs.flatMap AGui.addPairOps).foldl AGui.step s).kf_points
        = s.kf_points ++ pairs.map (fun pr => pr.1)
    ∧ ((pairs.flatMap AGui.addPairOps).foldl AGui.step s).floor_points
        = s.floor_points ++ pairs.map (fun pr => pr.2) := by
  induction pairs generalizing s with
  | nil => simp
  | cons pr rest ih =>
      rw [List.flatMap_cons, List.foldl_append]
      have h1 : ((AGui.addPairOps pr).foldl AGui.step s).kf_points = s.kf_points ++ [pr.1] := by
        simp [AGui.addPairOps, AGui.step, AGui.on_click, AGui.add_correspondence, AGui.redraw]
      have h2 : ((AGui.addPairOps pr).foldl AGui.step s).floor_points
          = s.floor_points ++ [pr.2] := by
        simp [AGui.addPairOps, AGui.step, AGui.on_click, AGui.add_correspondence, AGui.redraw]
      obtain ⟨ihk, ihf⟩ := ih ((AGui.addPairOps pr).foldl AGui.step s)
      constructor
      · rw [ihk, h1, List.append_assoc]
        simp
      · rw [ihf, h2, List.append_assoc]
        simp

lemma runAdds_kf (pairs : List (Point2 × Point2)) :
    (AGui.runAdds pairs).kf_points = pairs.map (fun pr => pr.1) := by
  have := (runAdds_aux pairs AGui.initialState).1
  simpa [AGui.initialState, AGui.runAdds, AGui.run] using this

lemma runAdds_floor (pairs : List (Point2 × Point2)) :
    (AGui.runAdds pairs).floor_points = pairs.map (fun pr => pr.2) := by
  have := (runAdds_aux pairs AGui.initialState).2
  simpa [AGui.initialState, AGui.runAdds, AGui.run] using this

lemma zip_enc_src (pairs : List (Point2 × Point2)) :
    (((pairs.map (fun pr => pr.1)).zip (pairs.map (fun pr => pr.2))).map
        (fun pr => ((pr.1.1 : ℚ), pr.1.2, pr.2.1, pr.2.2))).map (fun l => ((l.1 : ℚ), l.2.1))
      = pairs.map (fun pr => pr.1) := by
  induction pairs with
  | nil => simp
  | cons pr rest ih => simp [ih]

lemma zip_enc_dst (pairs : List (Point2 × Point2)) :
    (((pairs.map (fun pr => pr.1)).zip (pairs.map (fun pr => pr.2))).map
        (fun pr => ((pr.1.1 : ℚ), pr.1.2, pr.2.1, pr.2.2))).map
          (fun l => ((l.2.2.1 : ℚ), l.2.2.2))
      = pairs.map (fun pr => pr.2) := by
  induction pairs with
  | nil => simp
  | cons pr rest ih => simp [ih]

/-- Claim C2, counterexample: with N = 0 pairs added and a pre-existing
one-line file at the path, save performs no write (it reports "Nothing to
save"), so loading into a fresh empty store returns the pre-existing pair
rather than the empty sequence the claim requires for all N including 0. -/
theorem C2_counterexample :
    (AGui.load_correspondences AGui.initialState
        (AGui.save_correspondences (AGui.runAdds []) (some [(1, 2, 3, 4)]))).kf_points
      ≠ (([] : List (Point2 × Point2)).map (fun pr => pr.1)) := by
  decide

/-- Claim C2 (amended): for every sequence of N pairs added to the store,
saving and then loading into a fresh empty store yields exactly the same
ordered sequence of (source, target) pairs — for every N ≥ 1 regardless of
what the path held before, and for N = 0 provided the path holds no
pre-existing file (save on an empty store performs no write, so an old file
would be what load returns). -/
theorem C2_roundtrip (pairs : List (Point2 × Point2)) (fs : AGui.FileState)
    (h : pairs ≠ [] ∨ fs = none) :
    (AGui.load_correspondences AGui.initialState
        (AGui.save_correspondences (AGui.runAdds pairs) fs)).kf_points
      = pairs.map (fun pr => pr.1)
    ∧ (AGui.load_correspondences AGui.initialState
        (AGui.save_correspondences (AGui.runAdds pairs) fs)).floor_points
      = pairs.map (fun pr => pr.2) := by
  rcases eq_or_ne pairs [] with hp | hp
  · have hfs : fs = none := by
      rcases h with h | h
      · exact absurd hp h
      · exact h
    subst hp
    subst hfs
    simp [AGui.save_correspondences, AGui.load_correspondences, AGui.runAdds, AGui.run,
      AGui.initialState]
  · have hknil : (AGui.runAdds pairs).kf_points ≠ [] := by
      rw [runAdds_kf]
      simpa using hp
    have hfnil : (AGui.runAdds pairs).floor_points ≠ [] := by
      rw [runAdds_floor]
      simpa using hp
    unfold AGui.save_correspondences
    rw [if_neg (by push_neg; exact ⟨hknil, hfnil⟩)]
    unfold AGui.load_correspondences
    rw [runAdds_kf, runAdds_floor]
    constructor
    · simpa [AGui.initialState] using zip_enc_src pairs
    · simpa [AGui.initialState] using zip_enc_dst pairs

/-- Witness for C2_roundtrip: one added pair round-trips through a path that
previously held a different line. -/
theorem C2_roundtrip_witness :
    (([((1, 2), (3, 4))] : List (Point2 × Point2)) ≠ [] ∨
      (some [(9, 9, 9, 9)] : AGui.FileState) = none)
    ∧ ((AGui.load_correspondences AGui.initialState
          (AGui.save_correspondences (AGui.runAdds [((1, 2), (3, 4))])
            (some [(9, 9, 9, 9)]))).kf_points
        = ([((1, 2), (3, 4))] : List (Point2 × Point2)).map (fun pr => pr.1)
      ∧ (AGui.load_correspondences AGui.initialState
          (AGui.save_correspondences (AGui.runAdds [((1, 2), (3, 4))])
            (some [(9, 9, 9, 9)]))).floor_points
        = ([((1, 2), (3, 4))] : List (Point2 × Point2)).map (fun pr => pr.2)) :=
  ⟨Or.inl (by decide), C2_roundtrip [((1, 2), (3, 4))] (some [(9, 9, 9, 9)]) (Or.inl (by decide))⟩

/-! ## Claim C3 -/

/-- A deform session with two accumulated control pairs whose next drag
starts exactly on an existing control point, so the appended pair makes the
source list degenerate and the thin-plate fit raise. -/
def dupDragState : AGui0.GUIState :=
  { kf := [(1, 1), (2, 2)], pc := [(0, 5)],
    mode := some AGui0.Mode.deform,
    last_mouse_pos := some (0, 0),
    deform_start := some (0, 0),
    control_src := [(0, 0), (3, 1)],
    control_dst := [(1, 1), (4, 2)] }

/-- Claim C3, counterexample: a drag-gesture release whose TPS fit fails
does not leave the accumulated control-point lists unchanged — the pair is
appended before the fit runs, so after the raised fit the source list has
grown from 2 to 3 entries. -/
theorem C3_counterexample :
    (AGui0.on_mouse_release psiStd tpsId dupDragState (some (5, 5))).2 = true
    ∧ (AGui0.on_mouse_release psiStd tpsId dupDragState (some (5, 5))).1.control_src
        ≠ dupDragState.control_src := by
  have h := release_raises psiStd tpsId dupDragState (0, 0) (5, 5) (by decide) (by decide)
      (by decide) (kernelSingular_of_dup psiStd _ (by decide))
  rw [h]
  exact ⟨rfl, by decide⟩

/-- Claim C3 (amended): when the TPS fit of a drag-gesture release raises,
the live projected geometry is left unchanged, but the release is not
all-or-nothing — the control-point lists retain the pair appended before
the failing fit, and neither the pending drag start nor the recorded mouse
position is cleared.  Stated for the always-raising duplicate-source case,
and for every kernel function. -/
theorem C3_release_not_atomic (ψ : ℚ → ℚ)
    (tpsEval : List Point2 → List Point2 → Point2 → Point2)
    (s : AGui0.GUIState) (d e : Point2)
    (hm : s.mode = some AGui0.Mode.deform)
    (hd : s.deform_start = some d)
    (hn : 2 ≤ s.control_src.length)
    (hdup : AGui0.hasDuplicateSource (s.control_src ++ [d]) = true) :
    AGui0.on_mouse_release ψ tpsEval s (some e) =
      ({ s with control_src := s.control_src ++ [d],
                control_dst := s.control_dst ++ [e] }, true) :=
  release_raises ψ tpsEval s d e hm hd hn (kernelSingular_of_dup ψ _ hdup)

/-- Witness for C3_release_not_atomic at the concrete duplicate-source drag
state. -/
theorem C3_release_not_atomic_witness :
    dupDragState.mode = some AGui0.Mode.deform
    ∧ dupDragState.deform_start = some ((0 : ℚ), (0 : ℚ))
    ∧ 2 ≤ dupDragState.control_src.length
    ∧ AGui0.hasDuplicateSource (dupDragState.control_src ++ [(0, 0)]) = true
    ∧ AGui0.on_mouse_release psiStd tpsId dupDragState (some (5, 5)) =
        ({ dupDragState with control_src := dupDragState.control_src ++ [(0, 0)],
                             control_dst := dupDragState.control_dst ++ [(5, 5)] }, true) :=
  ⟨by decide, by decide, by decide, by decide,
    C3_release_not_atomic psiStd tpsId dupDragState (0, 0) (5, 5) (by decide) (by decide)
      (by decide) (by decide)⟩

/-! ## Claim C5 -/

/-- A deform session with two accumulated control pairs whose next drag
adds a third, distinct, collinear source point (pairwise distances 2, 3 and
5 — none equal to 1, so the thin-plate kernel matrix is nonsingular). -/
def collinearDragState : AGui0.GUIState :=
  { kf := [(1, 1)], pc := [],
    mode := some AGui0.Mode.deform,
    last_mouse_pos := some (5, 0),
    deform_start := some (5, 0),
    control_src := [(0, 0), (2, 0)],
    control_dst := [(0, 1), (2, 1)] }

/-- The collinear sources (0,0), (2,0), (5,0) give a nonsingular kernel
system: the matrix is [[ψ0, ψ4, ψ25], [ψ4, ψ0, ψ9], [ψ25, ψ9, ψ0]] with
determinant 2 ψ4 ψ9 ψ25 when ψ0 = 0, nonzero whenever the kernel is
nonzero off squared distances 0 and 1 — which the real thin-plate kernel
is, so the stand-in kernel decides singularity the same way here. -/
lemma collinear_not_singular :
    AGui0.kernelSingular psiStd [((0 : ℚ), (0 : ℚ)), (2, 0), (5, 0)] = false := by
  unfold AGui0.kernelSingular
  apply decide_eq_false
  have hmat : (AGui0.kernelMatrix psiStd [((0 : ℚ), (0 : ℚ)), (2, 0), (5, 0)] :
      Matrix (Fin 3) (Fin 3) ℚ) = !![0, 12, 600; 12, 0, 72; 600, 72, 0] := by
    ext i j
    fin_cases i <;> fin_cases j <;>
      norm_num [AGui0.kernelMatrix, AGui0.sqDist, Matrix.of_apply, List.get, psiStd]
  show ¬ (AGui0.kernelMatrix psiStd [((0 : ℚ), (0 : ℚ)), (2, 0), (5, 0)] :
      Matrix (Fin 3) (Fin 3) ℚ).det = 0
  rw [hmat, Matrix.det_fin_three]
  norm_num

/-- Claim C5, counterexample: the release that brings the control-point
count to exactly 3 — with distinct but collinear source points whose kernel
system is nonsingular — does not fail: the thin-plate fit runs and the
fitted transform is applied to the geometry, contradicting the claim that
the estimator fails whenever given fewer than 4 pairs or collinear
sources. -/
theorem C5_counterexample :
    (AGui0.on_mouse_release psiStd tpsConst collinearDragState (some (7, 0))).2 = false
    ∧ (AGui0.on_mouse_release psiStd tpsConst collinearDragState
        (some (7, 0))).1.control_src.length = 3
    ∧ (AGui0.on_mouse_release psiStd tpsConst collinearDragState (some (7, 0))).1.kf
        = [((9 : ℚ), (9 : ℚ))] := by
  have hns := collinear_not_singular
  simp only [Prod.mk_zero_zero] at hns
  refine ⟨?_, ?_, ?_⟩ <;>
    simp [AGui0.on_mouse_release, AGui0.apply_tps_deformation, collinearDragState,
      tpsConst, hns]

/-- Claim C5 (amended): in the deform workflow the thin-plate fit is
attempted as soon as the appended control list reaches 3 pairs, and it
raises exactly when the appended source points give a singular kernel
system.  Duplicated source points always do, but so do certain distinct
configurations: for every kernel vanishing at squared distances 0 and 1 —
as the real thin-plate kernel r² log r does — the distinct collinear
sources (0,0), (1,0), (2,0) at unit spacing are singular.  With fewer than
3 accumulated pairs no fit is attempted and the geometry is untouched; a
3-pair nonsingular configuration fits successfully, so the fit is not
limited to 4 or more pairs.  No `DegenerateCorrespondenceError` type
exists — the raise is scipy's generic linear-algebra error. -/
theorem C5_tps_failure_condition (ψ : ℚ → ℚ)
    (tpsEval : List Point2 → List Point2 → Point2 → Point2)
    (s : AGui0.GUIState) (d e : Point2)
    (hm : s.mode = some AGui0.Mode.deform)
    (hd : s.deform_start = some d) :
    ((AGui0.on_mouse_release ψ tpsEval s (some e)).2 = true ↔
      2 ≤ s.control_src.length
      ∧ AGui0.kernelSingular ψ (s.control_src ++ [d]) = true)
    ∧ (s.control_src.length < 2 →
        (AGui0.on_mouse_release ψ tpsEval s (some e)).1.kf = s.kf)
    ∧ (ψ 0 = 0 → ψ 1 = 0 →
        AGui0.kernelSingular ψ [((0 : ℚ), (0 : ℚ)), (1, 0), (2, 0)] = true) := by
  refine ⟨?_, ?_, ?_⟩
  · unfold AGui0.on_mouse_release
    rw [hm, hd]
    by_cases hn : 2 ≤ s.control_src.length
    · have hlen : 3 ≤ (s.control_src ++ [d]).length := by
        rw [List.length_append]
        simpa using hn
      simp only [hlen, if_pos hlen]
      unfold AGui0.apply_tps_deformation
      by_cases hsing : AGui0.kernelSingular ψ (s.control_src ++ [d]) = true
      · simp [hsing, hn]
      · simp only [Bool.not_eq_true] at hsing
        simp [hsing, hn]
    · have hlen : ¬ 3 ≤ (s.control_src ++ [d]).length := by
        rw [List.length_append]
        simpa using hn
      simp [if_neg hlen, hn]
  · intro hlt
    unfold AGui0.on_mouse_release
    rw [hm, hd]
    have hn2 : ¬ 2 ≤ s.control_src.length := by omega
    simp [hn2]
  · intro h0 h1
    unfold AGui0.kernelSingular
    rw [decide_eq_true_eq]
    apply Matrix.det_eq_zero_of_row_eq_zero ⟨1, by decide⟩
    intro j
    fin_cases j
    · show ψ (AGui0.sqDist ((1 : ℚ), (0 : ℚ)) ((0 : ℚ), (0 : ℚ))) = 0
      rw [show AGui0.sqDist ((1 : ℚ), (0 : ℚ)) ((0 : ℚ), (0 : ℚ)) = 1 by
        norm_num [AGui0.sqDist]]
      exact h1
    · show ψ (AGui0.sqDist ((1 : ℚ), (0 : ℚ)) ((1 : ℚ), (0 : ℚ))) = 0
      rw [show AGui0.sqDist ((1 : ℚ), (0 : ℚ)) ((1 : ℚ), (0 : ℚ)) = 0 by
        norm_num [AGui0.sqDist]]
      exact h0
    · show ψ (AGui0.sqDist ((1 : ℚ), (0 : ℚ)) ((2 : ℚ), (0 : ℚ))) = 0
      rw [show AGui0.sqDist ((1 : ℚ), (0 : ℚ)) ((2 : ℚ), (0 : ℚ)) = 1 by
        norm_num [AGui0.sqDist]]
      exact h1

/-- Witness for C5_tps_failure_condition at the collinear three-pair drag
state and the stand-in kernel: the release's fit does not raise there, and
the unit-spaced collinear sources are singular. -/
theorem C5_tps_failure_condition_witness :
    collinearDragState.mode = some AGui0.Mode.deform
    ∧ collinearDragState.deform_start = some ((5 : ℚ), (0 : ℚ))
    ∧ ((AGui0.on_mouse_release psiStd tpsConst collinearDragState (some (7, 0))).2 = true ↔
        2 ≤ collinearDragState.control_src.length
        ∧ AGui0.kernelSingular psiStd (collinearDragState.control_src ++ [(5, 0)]) = true)
    ∧ psiStd 0 = 0
    ∧ psiStd 1 = 0
    ∧ AGui0.kernelSingular psiStd [((0 : ℚ), (0 : ℚ)), (1, 0), (2, 0)] = true :=
  ⟨by decide, by decide,
    (C5_tps_failure_condition psiStd tpsConst collinearDragState (5, 0) (7, 0)
      (by decide) (by decide)).1,
    by norm_num [psiStd],
    by norm_num [psiStd],
    (C5_tps_failure_condition psiStd tpsConst collinearDragState (5, 0) (7, 0)
      (by decide) (by decide)).2.2 (by norm_num [psiStd]) (by norm_num [psiStd])⟩


/-! ## Claim C7 -/

lemma mean2_fst (l : List Point2) :
    (mean2 l).1 = (l.map (fun p => p.1)).sum / (l.length : ℚ) := rfl

lemma mean2_snd (l : List Point2) :
    (mean2 l).2 = (l.map (fun p => p.2)).sum / (l.length : ℚ) := rfl

lemma sum_map_affine (l : List ℚ) (z a : ℚ) :
    (l.map (fun x => z * (x - a) + a)).sum = z * l.sum + (l.length : ℚ) * (a - z * a) := by
  induction l with
  | nil => simp
  | cons x xs ih =>
      simp only [List.map_cons, List.sum_cons, ih, List.length_cons]
      push_cast
      ring

/-- Scaling every point about the centroid leaves the centroid fixed. -/
lemma mean2_scale_about_mean (l : List Point2) (h : l ≠ []) (z : ℚ) :
    mean2 (l.map (fun p => add2 (smul2 z (sub2 p (mean2 l))) (mean2 l))) = mean2 l := by
  have hn : (l.length : ℚ) ≠ 0 := by
    have hpos := List.length_pos.mpr h
    exact_mod_cast Nat.pos_iff_ne_zero.mp hpos
  have h1 : (l.map (fun p => add2 (smul2 z (sub2 p (mean2 l))) (mean2 l))).map
        (fun p : Point2 => p.1)
      = (l.map (fun p : Point2 => p.1)).map (fun x => z * (x - (mean2 l).1) + (mean2 l).1) := by
    simp [List.map_map, Function.comp_def, add2, smul2, sub2]
  have h2 : (l.map (fun p => add2 (smul2 z (sub2 p (mean2 l))) (mean2 l))).map
        (fun p : Point2 => p.2)
      = (l.map (fun p : Point2 => p.2)).map (fun x => z * (x - (mean2 l).2) + (mean2 l).2) := by
    simp [List.map_map, Function.comp_def, add2, smul2, sub2]
  apply Prod.ext
  · rw [mean2_fst, mean2_fst, h1, List.length_map, sum_map_affine, List.length_map,
      mean2_fst]
    field_simp
  · rw [mean2_snd, mean2_snd, h2, List.length_map, sum_map_affine, List.length_map,
      mean2_snd]
    field_simp

/-- In zoom mode, `on_scroll` scales both point sets about the current
trajectory centroid by the step-dependent factor. -/
lemma on_scroll_zoom (s : AGui0.GUIState) (hm : s.mode = some AGui0.Mode.zoom) (step : ℤ) :
    AGui0.on_scroll s step =
      { s with
          kf := s.kf.map (fun p =>
            add2 (smul2 (if 0 < step then (11 : ℚ) / 10 else 9 / 10)
              (sub2 p (mean2 s.kf))) (mean2 s.kf)),
          pc := s.pc.map (fun p =>
            add2 (smul2 (if 0 < step then (11 : ℚ) / 10 else 9 / 10)
              (sub2 p (mean2 s.kf))) (mean2 s.kf)) } := by
  unfold AGui0.on_scroll
  rw [if_pos hm]

/-- Claim C7 (amended): a zoom-in followed by a zoom-out both scale about
the trajectory centroid, which the first zoom preserves — but the discrete
zoom-out factor is 0.9, not the reciprocal of the zoom-in factor 1.1, so
the composite scales every trajectory and cloud point by 99/100 about the
centroid instead of restoring the pre-zoom coordinates. -/
theorem C7_zoom_roundtrip_scales (s : AGui0.GUIState)
    (hm : s.mode = some AGui0.Mode.zoom) (hk : s.kf ≠ []) :
    (AGui0.on_scroll (AGui0.on_scroll s 1) (-1)).kf
      = s.kf.map (fun p => add2 (smul2 (99 / 100) (sub2 p (mean2 s.kf))) (mean2 s.kf))
    ∧ (AGui0.on_scroll (AGui0.on_scroll s 1) (-1)).pc
      = s.pc.map (fun p => add2 (smul2 (99 / 100) (sub2 p (mean2 s.kf))) (mean2 s.kf)) := by
  have hone : (if 0 < (1 : ℤ) then (11 : ℚ) / 10 else 9 / 10) = 11 / 10 := by norm_num
  have hmone : (if 0 < (-1 : ℤ) then (11 : ℚ) / 10 else 9 / 10) = 9 / 10 := by norm_num
  have h1 := on_scroll_zoom s hm 1
  rw [hone] at h1
  have hmode1 : (AGui0.on_scroll s 1).mode = some AGui0.Mode.zoom := by
    rw [h1]
    exact hm
  have h2 := on_scroll_zoom (AGui0.on_scroll s 1) hmode1 (-1)
  rw [hmone] at h2
  have hmean : mean2 ((AGui0.on_scroll s 1).kf) = mean2 s.kf := by
    rw [h1]
    exact mean2_scale_about_mean s.kf hk (11 / 10)
  rw [h2, hmean]
  constructor
  · show ((AGui0.on_scroll s 1).kf.map _) = _
    rw [h1]
    show ((s.kf.map _).map _) = _
    rw [List.map_map]
    apply List.map_congr_left
    intro p _
    simp only [Function.comp_def, add2, smul2, sub2]
    apply Prod.ext
    · show (9 : ℚ) / 10 * (11 / 10 * (p.1 - (mean2 s.kf).1) + (mean2 s.kf).1 - (mean2 s.kf).1)
          + (mean2 s.kf).1 = 99 / 100 * (p.1 - (mean2 s.kf).1) + (mean2 s.kf).1
      ring
    · show (9 : ℚ) / 10 * (11 / 10 * (p.2 - (mean2 s.kf).2) + (mean2 s.kf).2 - (mean2 s.kf).2)
          + (mean2 s.kf).2 = 99 / 100 * (p.2 - (mean2 s.kf).2) + (mean2 s.kf).2
      ring
  · show ((AGui0.on_scroll s 1).pc.map _) = _
    rw [h1]
    show ((s.pc.map _).map _) = _
    rw [List.map_map]
    apply List.map_congr_left
    intro p _
    simp only [Function.comp_def, add2, smul2, sub2]
    apply Prod.ext
    · show (9 : ℚ) / 10 * (11 / 10 * (p.1 - (mean2 s.kf).1) + (mean2 s.kf).1 - (mean2 s.kf).1)
          + (mean2 s.kf).1 = 99 / 100 * (p.1 - (mean2 s.kf).1) + (mean2 s.kf).1
      ring
    · show (9 : ℚ) / 10 * (11 / 10 * (p.2 - (mean2 s.kf).2) + (mean2 s.kf).2 - (mean2 s.kf).2)
          + (mean2 s.kf).2 = 99 / 100 * (p.2 - (mean2 s.kf).2) + (mean2 s.kf).2
      ring

/-- A zoom-mode session over a concrete two-point trajectory. -/
def zoomState : AGui0.GUIState :=
  { kf := [(0, 0), (2, 0)], pc := [],
    mode := some AGui0.Mode.zoom,
    last_mouse_pos := none, deform_start := none,
    control_src := [], control_dst := [] }

/-- Claim C7, counterexample: zoom-in then zoom-out on the trajectory
{(0,0),(2,0)} yields {(1/100,0),(199/100,0)}, not the original points — the
difference is the systematic factor 0.99, far beyond float tolerance. -/
theorem C7_counterexample :
    (AGui0.on_scroll (AGui0.on_scroll zoomState 1) (-1)).kf ≠ zoomState.kf := by
  rw [on_scroll_zoom zoomState (by decide) 1, on_scroll_zoom _ (by decide) (-1)]
  norm_num [zoomState, mean2, add2, smul2, sub2, List.map_map, Function.comp_def]

/-- Witness for C7_zoom_roundtrip_scales at the concrete zoom session. -/
theorem C7_zoom_roundtrip_scales_witness :
    zoomState.mode = some AGui0.Mode.zoom
    ∧ zoomState.kf ≠ []
    ∧ (AGui0.on_scroll (AGui0.on_scroll zoomState 1) (-1)).kf
        = zoomState.kf.map (fun p =>
            add2 (smul2 (99 / 100) (sub2 p (mean2 zoomState.kf))) (mean2 zoomState.kf)) :=
  ⟨by decide, by decide, (C7_zoom_roundtrip_scales zoomState (by decide) (by decide)).1⟩

/-! ## Claim C8 -/

/-- The rotation matrix R(angle) = [[cos,-sin],[sin,cos]] applied to a
column vector — the form in which the claim states the update.  The code
computes the row vector times R transposed, which is the same map. -/
def rotApply (cosA sinA : ℚ) (v : Point2) : Point2 :=
  (cosA * v.1 - sinA * v.2, sinA * v.1 + cosA * v.2)

/-- Claim C8 (confirmed): in rotate mode, one drag maps every trajectory and
cloud point p to R(angle)·(p − c) + c, where c is the mean of the current
trajectory points, recomputed from the state at the time of the call and
shared by the cloud update — not a fixed screen origin.  The angle's cosine
and sine come from `angleOf` applied to the centered previous and current
mouse vectors, quantifying the statement over every realizable angle. -/
theorem C8_rotate_about_current_centroid
    (angleOf : Point2 → Point2 → ℚ × ℚ) (s : AGui0.GUIState) (lm cur : Point2)
    (hm : s.mode = some AGui0.Mode.rotate) (hl : s.last_mouse_pos = some lm) :
    (AGui0.on_mouse_drag angleOf s (some cur)).kf
      = s.kf.map (fun p =>
          add2 (rotApply (angleOf (sub2 lm (mean2 s.kf)) (sub2 cur (mean2 s.kf))).1
                         (angleOf (sub2 lm (mean2 s.kf)) (sub2 cur (mean2 s.kf))).2
                         (sub2 p (mean2 s.kf))) (mean2 s.kf))
    ∧ (AGui0.on_mouse_drag angleOf s (some cur)).pc
      = s.pc.map (fun p =>
          add2 (rotApply (angleOf (sub2 lm (mean2 s.kf)) (sub2 cur (mean2 s.kf))).1
                         (angleOf (sub2 lm (mean2 s.kf)) (sub2 cur (mean2 s.kf))).2
                         (sub2 p (mean2 s.kf))) (mean2 s.kf)) := by
  unfold AGui0.on_mouse_drag
  rw [hl]
  simp [hm, AGui0.rotRowT, rotApply]

/-- A rotate-mode session over a concrete trajectory. -/
def rotState : AGui0.GUIState :=
  { kf := [(0, 0), (2, 0)], pc := [(1, 3)],
    mode := some AGui0.Mode.rotate,
    last_mouse_pos := some (3, 0), deform_start := none,
    control_src := [], control_dst := [] }

/-- Witness for C8_rotate_about_current_centroid at a concrete state and a
concrete angle oracle. -/
theorem C8_rotate_about_current_centroid_witness :
    rotState.mode = some AGui0.Mode.rotate
    ∧ rotState.last_mouse_pos = some ((3 : ℚ), (0 : ℚ))
    ∧ (AGui0.on_mouse_drag (fun _ _ => ((0 : ℚ), (1 : ℚ))) rotState (some (0, 3))).kf
        = rotState.kf.map (fun p =>
            add2 (rotApply ((fun (_ _ : Point2) => ((0 : ℚ), (1 : ℚ)))
                    (sub2 (3, 0) (mean2 rotState.kf)) (sub2 (0, 3) (mean2 rotState.kf))).1
                  ((fun (_ _ : Point2) => ((0 : ℚ), (1 : ℚ)))
                    (sub2 (3, 0) (mean2 rotState.kf)) (sub2 (0, 3) (mean2 rotState.kf))).2
                  (sub2 p (mean2 rotState.kf))) (mean2 rotState.kf)) :=
  ⟨by decide, by decide,
    (C8_rotate_about_current_centroid (fun _ _ => ((0 : ℚ), (1 : ℚ))) rotState (3, 0) (0, 3)
      (by decide) (by decide)).1⟩
